import Mathlib

/-!
Verification of the kubevirt-imds repository against its specification.

The definitions below are a shallow embedding of the Go sources:
* `internal/webhook/mutate.go` — pod mutation predicate, JSON-patch emission,
  RFC 6901 escaping (`ShouldMutate`, `Mutate`, `addAnnotation`,
  `escapeJSONPointer`, `replaceAll`);
* `pkg/network/veth.go` — bridge discovery (`DiscoverBridge`);
* `internal/imds/server.go` — middleware chain and the ARP responder
  (`metadataHeaderMiddleware`, `rateLimitMiddleware`, `handlePacket`,
  `buildARPReply`);
* `internal/imds/handlers.go` — HTTP handlers (`handleHealthz`,
  `handleToken`, `handleUserData`, `parseJWTExpiration`).

Go maps are modelled as association lists (`List.lookup` = first match, the
unique-key discipline of Go maps makes this exact), Go `nil` maps as `none`,
byte slices as `List Nat`, and Go strings as Lean strings (the handled data
is ASCII throughout).
-/

namespace KVImds

/-! ## Webhook data model (internal/webhook/mutate.go) -/

/-- AnnotationEnabled is the annotation to enable IMDS injection. -/
def AnnotationEnabled : String := "imds.kubevirt.io/enabled"

/-- AnnotationBridgeName is the annotation to override bridge name. -/
def AnnotationBridgeName : String := "imds.kubevirt.io/bridge-name"

/-- AnnotationInjected marks that IMDS has been injected. -/
def AnnotationInjected : String := "imds.kubevirt.io/injected"

/-- TokenVolumeName is the name of the projected token volume. -/
def TokenVolumeName : String := "imds-token"

/-- ContainerName is the name of the injected sidecar container. -/
def ContainerName : String := "imds-server"

/-- Pod models the parts of `corev1.Pod` read and written by the mutator.
`annotations` and `labels` are `none` for Go `nil` maps; `volumes` and
`containers` keep only the names, which is all the mutation claims inspect. -/
structure Pod where
  annotations : Option (List (String × String))
  labels : Option (List (String × String))
  volumes : List String
  containers : List String
deriving DecidableEq, Repr

/-- goMapGet models the Go one-result map read `m[k]`: a missing key or a
`nil` map yields the zero value `""`. -/
def goMapGet (m : Option (List (String × String))) (k : String) : String :=
  match m with
  | none => ""
  | some l => (l.lookup k).getD ""

/-- ShouldMutate checks if the pod should be mutated
(`internal/webhook/mutate.go`, lines 49-74): the enabled annotation must be
the literal `"true"`, the injected annotation must not read `"true"`, and the
`kubevirt.io/domain` label must be present; `nil` maps fail the checks. -/
def ShouldMutate (pod : Pod) : Bool :=
  match pod.annotations with
  | none => false
  | some anns =>
    match anns.lookup AnnotationEnabled with
    | none => false
    | some enabled =>
      if enabled ≠ "true" then false
      else if (anns.lookup AnnotationInjected).getD "" = "true" then false
      else
        match pod.labels with
        | none => false
        | some lbls => (lbls.lookup "kubevirt.io/domain").isSome

/-- specShouldMutate is the predicate exactly as the specification words it
(spec §4.3): enabled annotation equal to `"true"`, injected annotation
*absent*, and one of the labels `kubevirt.io/domain` or `vm.kubevirt.io/name`
present. Written only for comparison with `ShouldMutate`. -/
def specShouldMutate (pod : Pod) : Bool :=
  match pod.annotations, pod.labels with
  | some anns, some lbls =>
    (anns.lookup AnnotationEnabled == some "true") &&
    (anns.lookup AnnotationInjected == none) &&
    ((lbls.lookup "kubevirt.io/domain").isSome ||
     (lbls.lookup "vm.kubevirt.io/name").isSome)
  | _, _ => false

/-! ## RFC 6901 escaping (internal/webhook/mutate.go, lines 226-243) -/

/-- replaceAllChars is the character-list core of the Go helper `replaceAll`
(`mutate.go`, lines 232-243): scan left to right; at each position, if `old`
is a prefix of the remaining input, emit `new` and skip `old`, otherwise copy
one character. The Go loop is only ever called with non-empty `old`; the
`old = []` guard keeps the recursion total without changing those calls. -/
def replaceAllChars (old new : List Char) : List Char → List Char
  | [] => []
  | c :: rest =>
    if old ≠ [] ∧ old.isPrefixOf (c :: rest) then
      new ++ replaceAllChars old new (rest.drop (old.length - 1))
    else
      c :: replaceAllChars old new rest
termination_by s => s.length
decreasing_by
  · simp only [List.length_cons]
    have := List.length_drop (old.length - 1) rest
    omega
  · simp only [List.length_cons]
    omega

/-- replaceAll lifts `replaceAllChars` to strings, matching the Go signature
`replaceAll(s, old, new string) string`. -/
def replaceAll (s old new : String) : String :=
  ⟨replaceAllChars old.data new.data s.data⟩

/-- escapeJSONPointer escapes special characters for JSON pointer (RFC 6901):
`~` → `~0` first, then `/` → `~1` (`mutate.go`, lines 226-230). -/
def escapeJSONPointer (s : String) : String :=
  replaceAll (replaceAll s "~" "~0") "/" "~1"

/-- unescapeJSONPointer is the RFC 6901 unescape the specification refers to
(not in the Go source): `~1` → `/` first, then `~0` → `~`. -/
def unescapeJSONPointer (s : String) : String :=
  replaceAll (replaceAll s "~1" "/") "~0" "~"

/-- charExpand maps a character-to-string function over a string and
concatenates; the analysis lemmas below reduce the escaping passes to this
shape. -/
def charExpand (f : Char → List Char) : List Char → List Char
  | [] => []
  | c :: rest => f c ++ charExpand f rest

/-- escChar is the per-character effect of `escapeJSONPointer`. -/
def escChar (c : Char) : List Char :=
  if c = '~' then ['~', '0'] else if c = '/' then ['~', '1'] else [c]

/-- escCharMid is the per-character state after undoing the `~1` → `/`
pass: only `~` is still expanded. -/
def escCharMid (c : Char) : List Char :=
  if c = '~' then ['~', '0'] else [c]

/-! ## Patch operations (internal/webhook/mutate.go, lines 77-223) -/

/-- PatchOp models the JSON patch operations the mutator emits; every
constructor is an RFC 6902 `add`. `addAnnotationKey` stores the escaped key
segment that Go formats into `/metadata/annotations/<escapedKey>`. -/
inductive PatchOp where
  | addVolumesArray (volume : String)
  | appendVolume (volume : String)
  | appendContainer (container : String)
  | createAnnotations (key value : String)
  | addAnnotationKey (escapedKey value : String)
deriving DecidableEq, Repr

/-- pathOf renders the Go `Path` field of each emitted patch operation. -/
def pathOf : PatchOp → String
  | .addVolumesArray _ => "/spec/volumes"
  | .appendVolume _ => "/spec/volumes/-"
  | .appendContainer _ => "/spec/containers/-"
  | .createAnnotations _ _ => "/metadata/annotations"
  | .addAnnotationKey escapedKey _ => "/metadata/annotations/" ++ escapedKey

/-- addVolume creates a patch to add a volume (`mutate.go`, lines 183-196):
create the array when the pod has no volumes, append otherwise. -/
def addVolume (pod : Pod) (volume : String) : PatchOp :=
  if pod.volumes.length = 0 then .addVolumesArray volume
  else .appendVolume volume

/-- addContainer creates a patch to add a container (`mutate.go`,
lines 199-205). -/
def addContainer (_pod : Pod) (container : String) : PatchOp :=
  .appendContainer container

/-- addAnnotation creates a patch to add an annotation (`mutate.go`,
lines 208-223): create the annotations map when it is `nil`, otherwise add a
single key at the RFC 6901-escaped path. -/
def addAnnotation (pod : Pod) (key value : String) : PatchOp :=
  match pod.annotations with
  | none => .createAnnotations key value
  | some _ => .addAnnotationKey (escapeJSONPointer key) value

/-- Mutate mutates the pod to inject the IMDS sidecar (`mutate.go`,
lines 77-103): token volume, server container, then the injected marker
annotation. The container spec details (image, env, security context) do not
affect any claim and are abbreviated to the container name. -/
def Mutate (pod : Pod) : List PatchOp :=
  [addVolume pod TokenVolumeName,
   addContainer pod ContainerName,
   addAnnotation pod AnnotationInjected "true"]

/-- upsertAssoc sets a member of a JSON object modelled as an association
list: any previous binding of the key is removed and the new pair is put in
front, so `List.lookup` of the key yields the new value and all other keys
are untouched. This is the effect of an RFC 6902 `add` on an object member. -/
def upsertAssoc (l : List (String × String)) (k v : String) :
    List (String × String) :=
  (k, v) :: l.filter (fun kv => kv.1 ≠ k)

/-- applyOp applies one emitted patch operation to the pod, following
RFC 6902 `add` semantics at the paths produced by `pathOf`. -/
def applyOp (pod : Pod) : PatchOp → Pod
  | .addVolumesArray v => { pod with volumes := [v] }
  | .appendVolume v => { pod with volumes := pod.volumes ++ [v] }
  | .appendContainer c => { pod with containers := pod.containers ++ [c] }
  | .createAnnotations k v => { pod with annotations := some [(k, v)] }
  | .addAnnotationKey esc v =>
    { pod with
      annotations :=
        some (upsertAssoc (pod.annotations.getD []) (unescapeJSONPointer esc) v) }

/-- applyOps applies a patch operation list left to right. -/
def applyOps (pod : Pod) (ops : List PatchOp) : Pod :=
  ops.foldl applyOp pod

/-- webhookPatches is the admission flow of `pkg/webhook/server.go`
(`processAdmission`, lines 137-195): patches are produced only when
`ShouldMutate` holds, otherwise the pod is allowed with zero operations. -/
def webhookPatches (pod : Pod) : List PatchOp :=
  if ShouldMutate pod then Mutate pod else []

/-! ## Bridge discovery (pkg/network/veth.go, lines 106-119) -/

/-- Link models the two attributes of a netlink link that `DiscoverBridge`
reads: its name and its type string. -/
structure Link where
  name : String
  linkType : String
deriving DecidableEq, Repr

/-- isK6tBridge is the per-link test of `DiscoverBridge`: type `"bridge"` and
name starting with `"k6t-"` (`strings.HasPrefix`, a byte-prefix test). -/
def isK6tBridge (l : Link) : Bool :=
  l.linkType == "bridge" && "k6t-".data.isPrefixOf l.name.data

/-- DiscoverBridge finds the KubeVirt VM bridge (`veth.go`, lines 106-119):
it iterates the link list in order and returns the name of the first bridge
whose name starts with `k6t-`, or an error when none matches. -/
def DiscoverBridge (links : List Link) : Except String String :=
  match links.find? isK6tBridge with
  | some l => .ok l.name
  | none => .error "no KubeVirt bridge (k6t-*) found"

/-! ## HTTP response model (internal/imds/handlers.go, internal/imds/server.go)

JSON bodies keep their structure; `Json.timeRFC3339 (some n)` stands for the
RFC 3339 marshaling of Go's `time.Unix(n, 0)` and `Json.timeRFC3339 none` for
the marshaling of the zero `time.Time` (the string `0001-01-01T00:00:00Z`).
Distinct times marshal to distinct strings, which is all the claims use. -/

/-- Json models the JSON values the server writes. -/
inductive Json where
  | str (s : String)
  | timeRFC3339 (t : Option Int)
  | obj (members : List (String × Json))

/-- Body is either a JSON document (the server's `writeJSON`) or plain text
(`w.Write`, `http.Error`, `http.NotFound`). -/
inductive Body where
  | json (j : Json)
  | text (s : String)

/-- Response models an HTTP response: status, body, and the only header any
claim mentions (`Retry-After`, set by the rate limiter). -/
structure Response where
  status : Nat
  body : Body
  retryAfter : Option String := none

/-- Request models the parts of `*http.Request` the handlers read. The
`metadataHeader` field is the result of `r.Header.Get("Metadata")`, which is
`""` when the header is absent. -/
structure Request where
  method : String
  path : String
  metadataHeader : String
deriving DecidableEq, Repr

/-- writeError writes an error response (`handlers.go`, lines 97-103): a JSON
object with the `error` and `message` fields, in Go struct-field order. -/
def writeError (status : Nat) (errCode message : String) : Response :=
  ⟨status, .json (.obj [("error", .str errCode), ("message", .str message)]), none⟩

/-- httpError models `http.Error(w, message, status)` from net/http: plain
text, with a trailing newline appended. -/
def httpError (message : String) (status : Nat) : Response :=
  ⟨status, .text (message ++ "\n"), none⟩

/-- notFoundResponse models `http.NotFound(w, r)`, which is
`http.Error(w, "404 page not found", 404)`. -/
def notFoundResponse : Response :=
  httpError "404 page not found" 404

/-- jsonField reads one top-level field of a JSON response body. -/
def jsonField (resp : Response) (key : String) : Option Json :=
  match resp.body with
  | .json (.obj l) => l.lookup key
  | _ => none

/-- isJsonErrorBody tests whether a body has exactly the error shape the
specification prescribes: a JSON object with a string `error` field followed
by a string `message` field. -/
def isJsonErrorBody : Body → Bool
  | .json (.obj [(k1, .str _), (k2, .str _)]) => k1 == "error" && k2 == "message"
  | _ => false

/-! ## Middleware (internal/imds/server.go, lines 194-236) -/

/-- exemptPaths is the exempt set of `metadataHeaderMiddleware`
(`server.go`, lines 201-207). -/
def exemptPaths : List String :=
  ["/healthz", "/v1/meta-data", "/v1/user-data", "/v1/network-config",
   "/openstack/latest/meta_data.json"]

/-- metadataHeaderMiddleware requires the `Metadata: true` header
(`server.go`, lines 198-224): exempt paths pass through; otherwise a header
value different from the exact string `"true"` yields a 400
`missing_header` error without invoking the inner handler. -/
def metadataHeaderMiddleware (next : Request → Response) (r : Request) :
    Response :=
  if exemptPaths.contains r.path then next r
  else if r.metadataHeader ≠ "true" then
    writeError 400 "missing_header" "Metadata: true header is required"
  else next r

/-- rateLimitMiddleware enforces rate limiting (`server.go`, lines 227-236);
`allow` is the result of `s.limiter.Allow()`. On deny it sets
`Retry-After: 1` and answers with `http.Error` text, status 429. -/
def rateLimitMiddleware (allow : Bool) (next : Request → Response)
    (r : Request) : Response :=
  if !allow then
    { status := 429, body := .text "rate limit exceeded\n", retryAfter := some "1" }
  else next r

/-! ## Handlers (internal/imds/handlers.go) -/

/-- handleHealthz handles GET /healthz (`handlers.go`, lines 34-41). -/
def handleHealthz (r : Request) : Response :=
  if r.method ≠ "GET" then httpError "Method not allowed" 405
  else ⟨200, .text "OK", none⟩

/-- handleUserData handles GET /v1/user-data (`handlers.go`, lines 126-140);
`userData` is the server's configured `UserData` field. -/
def handleUserData (userData : String) (r : Request) : Response :=
  if r.method ≠ "GET" then httpError "Method not allowed" 405
  else if userData = "" then notFoundResponse
  else ⟨200, .text userData, none⟩

/-! ## Whitespace trimming (strings.TrimSpace) -/

/-- isGoSpace is `unicode.IsSpace` on the Latin-1 range: the characters Go's
`strings.TrimSpace` strips from ASCII/Latin-1 token files (space, tab,
newline, vertical tab, form feed, carriage return, NEL, NBSP). -/
def isGoSpace (c : Char) : Bool :=
  c = ' ' || c = '\t' || c = '\n' || c = Char.ofNat 11 || c = Char.ofNat 12 ||
  c = '\r' || c = Char.ofNat 0x85 || c = Char.ofNat 0xA0

/-- goTrimSpace models `strings.TrimSpace`: remove leading and trailing
whitespace. -/
def goTrimSpace (s : String) : String :=
  ⟨((s.data.dropWhile isGoSpace).reverse.dropWhile isGoSpace).reverse⟩

/-! ## Base64 raw-URL decoding (encoding/base64 RawURLEncoding) -/

/-- b64urlVal maps one character of the URL-safe base64 alphabet to its
6-bit value; any other character is a decode error (Go rejects it). -/
def b64urlVal (c : Char) : Option Nat :=
  if 'A' ≤ c ∧ c ≤ 'Z' then some (c.toNat - 65)
  else if 'a' ≤ c ∧ c ≤ 'z' then some (c.toNat - 97 + 26)
  else if '0' ≤ c ∧ c ≤ '9' then some (c.toNat - 48 + 52)
  else if c = '-' then some 62
  else if c = '_' then some 63
  else none

/-- b64urlDecodeVals assembles bytes from 6-bit values in 4-value quanta,
with the unpadded final quantum of Go's `RawURLEncoding`: a leftover single
value is an error, two yield one byte, three yield two bytes. Go's default
(non-strict) decoder ignores nonzero trailing bits, as does this one. -/
def b64urlDecodeVals : List Nat → Option (List Nat)
  | [] => some []
  | [_] => none
  | [a, b] => some [a * 4 + b / 16]
  | [a, b, c] => some [a * 4 + b / 16, (b % 16) * 16 + c / 4]
  | a :: b :: c :: d :: rest =>
    (b64urlDecodeVals rest).map
      (fun tl => (a * 4 + b / 16) :: ((b % 16) * 16 + c / 4) ::
                 ((c % 4) * 64 + d) :: tl)

/-- base64RawURLDecode models `base64.RawURLEncoding.DecodeString`: newline
characters are ignored, every other character must be in the alphabet. -/
def base64RawURLDecode (s : String) : Option (List Nat) :=
  ((s.data.filter (fun c => c != '\r' && c != '\n')).mapM b64urlVal).bind
    b64urlDecodeVals

/-! ## JSON payload decoding (encoding/json, Unmarshal into struct Exp int64)

The payload parser below follows the JSON grammar as Go's decoder reads it,
over raw bytes. Two deliberate simplifications that no claim depends on: the
number scanner accepts a superset of Go's number literals (a malformed
literal still fails the integer conversion), and escape sequences inside
strings are skipped rather than decoded (a key written with escapes is never
compared equal to `exp`). -/

/-- JVal is a parsed JSON value; strings and number literals keep their raw
bytes. -/
inductive JVal where
  | null
  | bool (b : Bool)
  | num (lit : List Nat)
  | str (bytes : List Nat)
  | arr (elems : List JVal)
  | obj (members : List (List Nat × JVal))
deriving Repr

/-- skipJsonWs drops JSON whitespace (space, tab, LF, CR) bytes. -/
def skipJsonWs : List Nat → List Nat
  | [] => []
  | b :: rest =>
    if b = 32 ∨ b = 9 ∨ b = 10 ∨ b = 13 then skipJsonWs rest else b :: rest

/-- scanJsonString consumes a string body up to its closing quote, keeping
escape sequences verbatim; returns the content and the remaining input. -/
def scanJsonString : List Nat → Option (List Nat × List Nat)
  | [] => none
  | b :: rest =>
    if b = 34 then some ([], rest)
    else if b = 92 then
      match rest with
      | [] => none
      | e :: rest2 =>
        (scanJsonString rest2).map (fun pr => (b :: e :: pr.1, pr.2))
    else (scanJsonString rest).map (fun pr => (b :: pr.1, pr.2))

/-- isJsonNumByte recognizes the bytes that may continue a number literal. -/
def isJsonNumByte (b : Nat) : Bool :=
  (48 ≤ b && b ≤ 57) || b = 45 || b = 43 || b = 46 || b = 101 || b = 69

/-- scanJsonNumber takes the maximal run of number-literal bytes. -/
def scanJsonNumber (l : List Nat) : List Nat × List Nat :=
  (l.takeWhile isJsonNumByte, l.dropWhile isJsonNumByte)

mutual

/-- parseJsonValue parses one JSON value; the fuel bounds recursion depth
and is in practice never exhausted for inputs shorter than the fuel. -/
def parseJsonValue : Nat → List Nat → Option (JVal × List Nat)
  | 0, _ => none
  | fuel + 1, l =>
    match skipJsonWs l with
    | [] => none
    | b :: rest =>
      if b = 34 then (scanJsonString rest).map (fun pr => (.str pr.1, pr.2))
      else if b = 123 then parseJsonMembers fuel rest [] true
      else if b = 91 then parseJsonElems fuel rest [] true
      else if b = 116 then
        match rest with
        | 114 :: 117 :: 101 :: r => some (.bool true, r)
        | _ => none
      else if b = 102 then
        match rest with
        | 97 :: 108 :: 115 :: 101 :: r => some (.bool false, r)
        | _ => none
      else if b = 110 then
        match rest with
        | 117 :: 108 :: 108 :: r => some (.null, r)
        | _ => none
      else if (48 ≤ b ∧ b ≤ 57) ∨ b = 45 then
        let pr := scanJsonNumber (b :: rest)
        some (.num pr.1, pr.2)
      else none

/-- parseJsonMembers parses the members of an object after its opening
brace; `isFirst` is true before any member has been read. -/
def parseJsonMembers (fuel : Nat) (l : List Nat)
    (acc : List (List Nat × JVal)) (isFirst : Bool) :
    Option (JVal × List Nat) :=
  match fuel with
  | 0 => none
  | fuel + 1 =>
    match skipJsonWs l with
    | [] => none
    | b :: rest =>
      if b = 125 ∧ isFirst then some (.obj acc, rest)
      else if b = 34 then
        match scanJsonString rest with
        | none => none
        | some (key, rest2) =>
          match skipJsonWs rest2 with
          | 58 :: rest3 =>
            match parseJsonValue fuel rest3 with
            | none => none
            | some (v, rest4) =>
              match skipJsonWs rest4 with
              | 44 :: rest5 =>
                parseJsonMembers fuel rest5 (acc ++ [(key, v)]) false
              | 125 :: rest5 => some (.obj (acc ++ [(key, v)]), rest5)
              | _ => none
          | _ => none
      else none

/-- parseJsonElems parses the elements of an array after its opening
bracket; `isFirst` is true before any element has been read. -/
def parseJsonElems (fuel : Nat) (l : List Nat) (acc : List JVal)
    (isFirst : Bool) : Option (JVal × List Nat) :=
  match fuel with
  | 0 => none
  | fuel + 1 =>
    match skipJsonWs l with
    | [] => none
    | b :: rest =>
      if b = 93 ∧ isFirst then some (.arr acc, rest)
      else
        match parseJsonValue fuel (b :: rest) with
        | none => none
        | some (v, rest2) =>
          match skipJsonWs rest2 with
          | 44 :: rest3 => parseJsonElems fuel rest3 (acc ++ [v]) false
          | 93 :: rest3 => some (.arr (acc ++ [v]), rest3)
          | _ => none

end

/-- digitsToNat converts a non-empty run of decimal digit bytes. -/
def digitsToNat (ds : List Nat) : Option Nat :=
  if ds = [] then none
  else ds.foldlM
    (fun acc d => if 48 ≤ d ∧ d ≤ 57 then some (acc * 10 + (d - 48)) else none) 0

/-- jsonNumToInt converts a JSON number literal the way Go converts one into
an `int64` field (`strconv.ParseInt`): an optional sign followed by decimal
digits only. Go's int64 range check is dropped; no claim involves numbers
near 2^63. -/
def jsonNumToInt (lit : List Nat) : Option Int :=
  match lit with
  | 45 :: ds => (digitsToNat ds).map (fun n => -(n : Int))
  | 43 :: ds => (digitsToNat ds).map (fun n => (n : Int))
  | ds => (digitsToNat ds).map (fun n => (n : Int))

/-- expKeyBytes is the byte string `exp`. -/
def expKeyBytes : List Nat := [101, 120, 112]

/-- unmarshalExp models `json.Unmarshal(payload, &struct Exp int64)` as used
by `parseJWTExpiration`: the top level must be a single object with nothing
but whitespace after it; a duplicated `exp` key takes the last occurrence;
an absent `exp` or a JSON `null` leaves the zero value 0; a non-integer
`exp` is an error. -/
def unmarshalExp (payload : List Nat) : Option Int :=
  match parseJsonValue (payload.length + 1) payload with
  | some (.obj members, rest) =>
    if skipJsonWs rest = [] then
      match (members.filter (fun m => m.1 = expKeyBytes)).getLast? with
      | some (_, .num lit) => jsonNumToInt lit
      | some (_, .null) => some 0
      | some _ => none
      | none => some 0
    else none
  | _ => none

/-- splitOnChar splits a character list at every occurrence of `sep`; with
`sep = '.'` this is `strings.Split(s, ".")`, including `[""]` on the empty
string. -/
def splitOnChar (sep : Char) : List Char → List (List Char)
  | [] => [[]]
  | c :: rest =>
    let r := splitOnChar sep rest
    if c = sep then [] :: r
    else
      match r with
      | h :: t => (c :: h) :: t
      | [] => [[c]]

/-- goSplitDots models `strings.Split(token, ".")`. -/
def goSplitDots (s : String) : List String :=
  (splitOnChar '.' s.data).map String.mk

/-- parseJWTExpiration extracts the expiration from a JWT token
(`handlers.go`, lines 157-182): split by `.` into exactly three parts,
base64url-decode the middle (no padding), JSON-decode, read `exp`; an `exp`
of 0 (including an absent claim) is an error. The result models the
`time.Time` as seconds since the Unix epoch. -/
def parseJWTExpiration (token : String) : Option Int :=
  match goSplitDots token with
  | [_, payloadB64, _] =>
    match base64RawURLDecode payloadB64 with
    | none => none
    | some payload =>
      match unmarshalExp payload with
      | none => none
      | some e => if e = 0 then none else some e
  | _ => none

/-- handleToken handles GET /v1/token (`handlers.go`, lines 44-69);
`tokenFile` is the result of `os.ReadFile(s.TokenPath)` (`none` = error).
The response struct marshals both fields: the `omitempty` option on
`ExpirationTimestamp` has no effect because `time.Time` is a struct type,
which encoding/json never treats as empty, so a failed JWT parse emits the
zero time (`Json.timeRFC3339 none`) instead of omitting the field. -/
def handleToken (tokenFile : Option String) (r : Request) : Response :=
  if r.method ≠ "GET" then httpError "Method not allowed" 405
  else
    match tokenFile with
    | none => writeError 500 "token_unavailable" "Failed to read ServiceAccount token"
    | some contents =>
      let token := goTrimSpace contents
      ⟨200,
       .json (.obj [("token", .str token),
                    ("expirationTimestamp", .timeRFC3339 (parseJWTExpiration token))]),
       none⟩

/-! ## ARP responder (internal/imds/server.go, lines 251-461)

Frames are byte lists. The responder's receive loop (`Run`, lines 334-360)
drops frames shorter than 42 bytes (14-byte Ethernet header plus 28-byte ARP
payload) before calling `handlePacket`; `handlePacket` (lines 364-417)
re-checks the payload length, validates the header, filters on the target
IP, and sends the frame built by `buildARPReply` (lines 420-445).
`imdsMAC` and `imdsIP` are the responder's struct fields; `NewARPResponder`
(lines 276-293) sets `imdsIP` to the four bytes of `169.254.169.254` and
`imdsMAC` to the hardware address of the server-side veth `veth-imds`. -/

/-- ethernetHeaderLen is the Ethernet header length constant. -/
def ethernetHeaderLen : Nat := 14

/-- arpPacketLen is the ARP payload length constant. -/
def arpPacketLen : Nat := 28

/-- imdsAddrBytes is `net.ParseIP("169.254.169.254").To4()`. -/
def imdsAddrBytes : List Nat := [169, 254, 169, 254]

/-- copyInto models Go's `copy(dst[off:], src)`: overwrite bytes of `dst`
starting at `off` with the bytes of `src`, never growing `dst`. Callers
below pass `src.take n` to model the upper bound of a `dst[off:off+n]`
destination slice. -/
def copyInto (dst : List Nat) (off : Nat) (src : List Nat) : List Nat :=
  match dst, off, src with
  | [], _, _ => []
  | d :: rest, o + 1, s => d :: copyInto rest o s
  | _ :: rest, 0, b :: src2 => b :: copyInto rest 0 src2
  | dst, 0, [] => dst

/-- putUint16BE models `binary.BigEndian.PutUint16(dst[off:off+2], v)`. -/
def putUint16BE (dst : List Nat) (off v : Nat) : List Nat :=
  copyInto dst off [v / 256 % 256, v % 256]

/-- buildARPReply constructs the 42-byte ARP reply (`server.go`,
lines 420-445). Offsets 14 and up are the ARP payload, written in Go through
the `arp := packet[ethernetHeaderLen:]` alias; `0x0806` is
`syscall.ETH_P_ARP`. `To4()` on the 4-byte `imdsIP` and `destIP` slices is
the identity and is modelled by `take 4`. -/
def buildARPReply (imdsMAC imdsIP destMAC destIP : List Nat) : List Nat :=
  let p := List.replicate (ethernetHeaderLen + arpPacketLen) 0
  let p := copyInto p 0 (destMAC.take 6)
  let p := copyInto p 6 (imdsMAC.take 6)
  let p := putUint16BE p 12 0x0806
  let p := putUint16BE p 14 1
  let p := putUint16BE p 16 0x0800
  let p := copyInto p 18 [6]
  let p := copyInto p 19 [4]
  let p := putUint16BE p 20 2
  let p := copyInto p 22 (imdsMAC.take 6)
  let p := copyInto p 28 (imdsIP.take 4)
  let p := copyInto p 32 (destMAC.take 6)
  let p := copyInto p 38 (destIP.take 4)
  p

/-- sliceChecked models the Go slice expression `l[i:i+n]`: defined exactly
when the bounds are within the slice, a runtime panic otherwise. -/
def sliceChecked (l : List Nat) (i n : Nat) : Option (List Nat) :=
  if i + n ≤ l.length then some ((l.drop i).take n) else none

/-- beUint16 is `binary.BigEndian.Uint16` on a 2-byte slice. -/
def beUint16 (l : List Nat) : Nat :=
  256 * l.getD 0 0 + l.getD 1 0

/-- handlePacketChecked is `handlePacket` (`server.go`, lines 364-417) with
every byte access through a checked read: the outer `Option` is `none`
exactly when some access would be out of bounds, the inner `Option` is the
reply frame handed to `syscall.Sendto` (`none` = silently dropped). The
validation keeps the source's reads in order; its `||`-of-negations early
return is written as the equivalent positive conjunction. -/
def handlePacketChecked (imdsMAC imdsIP packet : List Nat) :
    Option (Option (List Nat)) :=
  let arp := packet.drop ethernetHeaderLen
  if arp.length < arpPacketLen then some none
  else
    (sliceChecked arp 0 2).bind fun htB =>
    (sliceChecked arp 2 2).bind fun ptB =>
    arp[4]?.bind fun hl =>
    arp[5]?.bind fun pl =>
    (sliceChecked arp 6 2).bind fun opB =>
    if beUint16 htB = 1 ∧ beUint16 ptB = 0x0800 ∧ hl = 6 ∧ pl = 4 ∧
       beUint16 opB = 1 then
      (sliceChecked arp 8 6).bind fun senderMAC =>
      (sliceChecked arp 14 4).bind fun senderIP =>
      (sliceChecked arp 24 4).bind fun targetIP =>
      if targetIP = imdsIP then
        some (some (buildARPReply imdsMAC imdsIP senderMAC senderIP))
      else some none
    else some none

/-- handlePacket is the observable behaviour of the source `handlePacket`:
the reply frame it sends, or `none` when it drops the frame. -/
def handlePacket (imdsMAC imdsIP packet : List Nat) : Option (List Nat) :=
  (handlePacketChecked imdsMAC imdsIP packet).join

/-- responderStep is one iteration of the receive loop (`Run`, lines
346-359): frames shorter than 42 bytes are dropped before `handlePacket`
runs. -/
def responderStep (imdsMAC imdsIP packet : List Nat) : Option (List Nat) :=
  if packet.length < ethernetHeaderLen + arpPacketLen then none
  else handlePacket imdsMAC imdsIP packet

/-- arpSlice reads `n` bytes at offset `off` of the ARP payload of a frame
(the source's `arp[off:off+n]`). -/
def arpSlice (packet : List Nat) (off n : Nat) : List Nat :=
  ((packet.drop ethernetHeaderLen).drop off).take n

/-- isIMDSArpRequestFor collects the conditions under which the source
replies: frame long enough, hardware type 1, protocol type 0x0800, hardware
length 6, protocol length 4, opcode 1 (request), and target protocol address
equal to the responder's IP. -/
def isIMDSArpRequestFor (imdsIP packet : List Nat) : Bool :=
  decide (ethernetHeaderLen + arpPacketLen ≤ packet.length) &&
  (beUint16 (arpSlice packet 0 2) == 1) &&
  (beUint16 (arpSlice packet 2 2) == 0x0800) &&
  (arpSlice packet 4 1 == [6]) &&
  (arpSlice packet 5 1 == [4]) &&
  (beUint16 (arpSlice packet 6 2) == 1) &&
  (arpSlice packet 24 4 == imdsIP)

/-! ## Concrete inputs used by counterexamples and witnesses -/

/-- podInjectedFalse carries the injected annotation with value `"false"`:
present but not equal to `"true"`. -/
def podInjectedFalse : Pod :=
  ⟨some [(AnnotationEnabled, "true"), (AnnotationInjected, "false")],
   some [("kubevirt.io/domain", "vm1")], [], []⟩

/-- podVmNameLabel carries only the newer `vm.kubevirt.io/name` label. -/
def podVmNameLabel : Pod :=
  ⟨some [(AnnotationEnabled, "true")],
   some [("vm.kubevirt.io/name", "vm1")], [], []⟩

/-- podSimple is an opted-in launcher pod with no prior injection. -/
def podSimple : Pod :=
  ⟨some [(AnnotationEnabled, "true")],
   some [("kubevirt.io/domain", "vm1")], [], []⟩

/-- getTokenReq is a GET /v1/token request with the metadata header set. -/
def getTokenReq : Request := ⟨"GET", "/v1/token", "true"⟩

/-- tokenReqNoHeader is a GET /v1/token request without the header. -/
def tokenReqNoHeader : Request := ⟨"GET", "/v1/token", ""⟩

/-- healthzReqNoHeader is a GET /healthz request without the header. -/
def healthzReqNoHeader : Request := ⟨"GET", "/healthz", ""⟩

/-- postHealthzReq is a POST to /healthz. -/
def postHealthzReq : Request := ⟨"POST", "/healthz", "true"⟩

/-- getUserDataReq is a GET /v1/user-data request. -/
def getUserDataReq : Request := ⟨"GET", "/v1/user-data", ""⟩

/-- okHandler is a stand-in inner handler. -/
def okHandler : Request → Response := fun _ => ⟨200, .text "inner-a", none⟩

/-- otherHandler is a second, observably different inner handler. -/
def otherHandler : Request → Response := fun _ => ⟨201, .text "inner-b", none⟩

/-- twoBridgeLinks has two distinct bridges matching the `k6t-` pattern. -/
def twoBridgeLinks : List Link :=
  [⟨"k6t-eth0", "bridge"⟩, ⟨"k6t-net0", "bridge"⟩]

/-- oneBridgeLink has a single matching bridge. -/
def oneBridgeLink : List Link := [⟨"k6t-eth0", "bridge"⟩]

/-- imdsMacSample is a server-side veth MAC. -/
def imdsMacSample : List Nat := [0x02, 0x11, 0x22, 0x33, 0x44, 0x55]

/-- vmMacSample stands for the discovered `vm_mac` of the specification. -/
def vmMacSample : List Nat := [0xaa, 0xaa, 0xaa, 0xaa, 0xaa, 0xaa]

/-- senderMacSample is a requester MAC different from `vmMacSample`. -/
def senderMacSample : List Nat := [0xbb, 0xbb, 0xbb, 0xbb, 0xbb, 0xbb]

/-- arpRequestFrame is a well-formed 42-byte ARP request for
169.254.169.254 sent from `senderMacSample` at IP 169.254.1.2. -/
def arpRequestFrame : List Nat :=
  List.replicate 14 0 ++ [0, 1, 8, 0, 6, 4, 0, 1] ++ senderMacSample ++
  [169, 254, 1, 2] ++ List.replicate 6 0 ++ [169, 254, 169, 254]

/-- shortFrame is one byte below the minimum frame length. -/
def shortFrame : List Nat := List.replicate 41 7

/-! ## Theorems -/

/-- DiscoverBridge on a cons inspects the head first. -/
theorem discoverBridge_cons (a : Link) (rest : List Link) :
    DiscoverBridge (a :: rest) =
      if isK6tBridge a then .ok a.name else DiscoverBridge rest := by
  simp only [DiscoverBridge, List.find?_cons]
  cases h : isK6tBridge a <;> simp [h]

/-- C5 counterexample: the injected annotation with value `"false"` is
present yet the code mutates, and a pod identified only by the newer
`vm.kubevirt.io/name` label is skipped by the code although the claim
admits it — both directions of the claimed "exactly when" fail. -/
theorem shouldMutate_differs_from_claim :
    ShouldMutate podInjectedFalse = true ∧
    specShouldMutate podInjectedFalse = false ∧
    ShouldMutate podVmNameLabel = false ∧
    specShouldMutate podVmNameLabel = true := by
  decide

/-- C5 (amended): `ShouldMutate` returns true exactly when the enabled
annotation is the literal `"true"`, the injected annotation does not carry
the value `"true"` (absent or any other value passes), and the
`kubevirt.io/domain` label is present; `nil` annotation or label maps yield
false, and `vm.kubevirt.io/name` alone does not qualify. -/
theorem shouldMutate_characterization (pod : Pod) :
    ShouldMutate pod = true ↔
      ∃ anns lbls, pod.annotations = some anns ∧ pod.labels = some lbls ∧
        anns.lookup AnnotationEnabled = some "true" ∧
        (anns.lookup AnnotationInjected).getD "" ≠ "true" ∧
        (lbls.lookup "kubevirt.io/domain").isSome = true := by
  rcases pod with ⟨anns?, lbls?, vols, conts⟩
  unfold ShouldMutate
  cases anns? with
  | none => simp
  | some anns =>
    cases h : anns.lookup AnnotationEnabled with
    | none => simp [h]
    | some e =>
      by_cases he : e = "true"
      · subst he
        by_cases hi : (anns.lookup AnnotationInjected).getD "" = "true"
        · simp [h, hi]
        · cases lbls? <;> simp [h, hi]
      · simp [h, he, fun hcontr => he (Option.some_injective _ hcontr)]

/-- C6 counterexample: with two bridges matching the `k6t-` pattern the code
returns the first one instead of reporting the claimed ambiguity error. -/
theorem discoverBridge_ambiguous_returns_first :
    DiscoverBridge twoBridgeLinks = .ok "k6t-eth0" := by
  rfl

/-- C6 (amended): bridge discovery scans the links in order and returns the
name of the *first* bridge whose name begins with `k6t-`; it errors exactly
when no link matches, and does not detect ambiguity. -/
theorem discoverBridge_first_match (links : List Link) :
    (DiscoverBridge links = .error "no KubeVirt bridge (k6t-*) found" ↔
      ∀ l ∈ links, isK6tBridge l = false) ∧
    (∀ name, DiscoverBridge links = .ok name →
      ∃ pre l post, links = pre ++ l :: post ∧ l.name = name ∧
        isK6tBridge l = true ∧ ∀ l' ∈ pre, isK6tBridge l' = false) := by
  induction links with
  | nil =>
    refine ⟨by simp [DiscoverBridge], ?_⟩
    intro name h
    simp [DiscoverBridge] at h
  | cons a rest ih =>
    rw [discoverBridge_cons]
    by_cases ha : isK6tBridge a
    · refine ⟨by simp [ha], ?_⟩
      intro name h
      rw [if_pos ha] at h
      exact ⟨[], a, rest, rfl, by simpa using h, ha, by simp⟩
    · rw [if_neg ha]
      refine ⟨?_, ?_⟩
      · rw [ih.1]
        constructor
        · intro h l hl
          rcases List.mem_cons.mp hl with h1 | h2
          · subst h1; simpa using ha
          · exact h l h2
        · intro h l hl
          exact h l (List.mem_cons_of_mem a hl)
      · intro name h
        obtain ⟨pre, l, post, heq, hname, hmatch, hpre⟩ := ih.2 name h
        refine ⟨a :: pre, l, post, by simp [heq], hname, hmatch, ?_⟩
        intro l' hl'
        rcases List.mem_cons.mp hl' with h1 | h2
        · subst h1; simpa using ha
        · exact hpre l' h2

/-- Witness for the C6 theorem at concrete link lists. -/
theorem discoverBridge_first_match_witness :
    DiscoverBridge [] = .error "no KubeVirt bridge (k6t-*) found" ∧
    (∃ pre l post, oneBridgeLink = pre ++ l :: post ∧ l.name = "k6t-eth0" ∧
      isK6tBridge l = true ∧ ∀ l' ∈ pre, isK6tBridge l' = false) :=
  ⟨(discoverBridge_first_match []).1.mpr (by simp),
   (discoverBridge_first_match oneBridgeLink).2 "k6t-eth0" (by rfl)⟩

/-! ### RFC 6901 escaping analysis (C8) -/

/-- replaceAllChars applied to the empty input. -/
theorem replaceAllChars_nil (old nw : List Char) :
    replaceAllChars old nw [] = [] := by
  rw [replaceAllChars]

/-- replaceAllChars unfolded one step on a cons. -/
theorem replaceAllChars_cons (old nw : List Char) (c : Char)
    (rest : List Char) :
    replaceAllChars old nw (c :: rest) =
      if old ≠ [] ∧ old.isPrefixOf (c :: rest) then
        nw ++ replaceAllChars old nw (rest.drop (old.length - 1))
      else c :: replaceAllChars old nw rest := by
  rw [replaceAllChars]

/-- A single-character pattern replaces characters pointwise. -/
theorem replaceAllChars_single (c : Char) (nw : List Char) (s : List Char) :
    replaceAllChars [c] nw s =
      charExpand (fun a => if a = c then nw else [a]) s := by
  induction s with
  | nil => simp [charExpand, replaceAllChars_nil]
  | cons a rest ih =>
    rw [replaceAllChars_cons]
    by_cases h : a = c
    · subst h
      simp [List.isPrefixOf, charExpand, ih]
    · have hba : (c == a) = false := by
        simp [beq_iff_eq]
        exact fun hc => h hc.symm
      simp [List.isPrefixOf, hba, charExpand, ih, h]

/-- charExpand distributes over append. -/
theorem charExpand_append (f : Char → List Char) (s t : List Char) :
    charExpand f (s ++ t) = charExpand f s ++ charExpand f t := by
  induction s <;> simp [charExpand, *]

/-- Two charExpand passes compose pointwise. -/
theorem charExpand_comp (f g : Char → List Char) (s : List Char) :
    charExpand g (charExpand f s) =
      charExpand (fun c => charExpand g (f c)) s := by
  induction s with
  | nil => simp [charExpand]
  | cons a rest ih => simp [charExpand, charExpand_append, ih]

/-- charExpand respects pointwise equality. -/
theorem charExpand_congr (f g : Char → List Char)
    (h : ∀ c, f c = g c) (s : List Char) :
    charExpand f s = charExpand g s := by
  induction s <;> simp [charExpand, h, *]

/-- The escaped form of a string, character by character. -/
theorem escapeJSONPointer_data (s : String) :
    (escapeJSONPointer s).data = charExpand escChar s.data := by
  show replaceAllChars "/".data "~1".data
      (replaceAllChars "~".data "~0".data s.data) = charExpand escChar s.data
  have hslash : "/".data = ['/'] := rfl
  have htilde : "~".data = ['~'] := rfl
  have h10 : "~0".data = ['~', '0'] := rfl
  have h11 : "~1".data = ['~', '1'] := rfl
  rw [hslash, htilde, h10, h11, replaceAllChars_single, replaceAllChars_single,
    charExpand_comp]
  apply charExpand_congr
  intro c
  by_cases h1 : c = '~'
  · subst h1; simp [charExpand, escChar]
  · by_cases h2 : c = '/'
    · subst h2; simp [charExpand, escChar]
    · simp [charExpand, escChar, h1, h2]

/-- Undoing `~1` → `/` on an escaped string leaves only `~0` expansions. -/
theorem unescape_pass1 (s : List Char) :
    replaceAllChars ['~', '1'] ['/'] (charExpand escChar s) =
      charExpand escCharMid s := by
  induction s with
  | nil => simp [charExpand, replaceAllChars_nil]
  | cons c rest ih =>
    by_cases h1 : c = '~'
    · subst h1
      show replaceAllChars ['~', '1'] ['/'] ('~' :: '0' :: charExpand escChar rest) = _
      rw [replaceAllChars_cons]
      rw [if_neg (by simp [List.isPrefixOf])]
      rw [replaceAllChars_cons]
      rw [if_neg (by simp [List.isPrefixOf])]
      rw [ih]
      rfl
    · by_cases h2 : c = '/'
      · subst h2
        show replaceAllChars ['~', '1'] ['/'] ('~' :: '1' :: charExpand escChar rest) = _
        rw [replaceAllChars_cons]
        rw [if_pos (by simp [List.isPrefixOf])]
        simp only [List.length_cons, List.length_nil, List.drop_succ_cons,
          List.drop_zero]
        rw [ih]
        rfl
      · have hc : escChar c = [c] := by simp [escChar, h1, h2]
        show replaceAllChars ['~', '1'] ['/'] (escChar c ++ charExpand escChar rest) = _
        rw [hc]
        show replaceAllChars ['~', '1'] ['/'] (c :: charExpand escChar rest) = _
        rw [replaceAllChars_cons]
        rw [if_neg (by
          rintro ⟨-, hpre⟩
          rw [List.isPrefixOf_cons₂, Bool.and_eq_true, beq_iff_eq] at hpre
          exact h1 hpre.1.symm)]
        rw [ih]
        simp [charExpand, escCharMid, h1]


/-- Undoing `~0` → `~` then recovers the original string. -/
theorem unescape_pass2 (s : List Char) :
    replaceAllChars ['~', '0'] ['~'] (charExpand escCharMid s) = s := by
  induction s with
  | nil => simp [charExpand, replaceAllChars_nil]
  | cons c rest ih =>
    by_cases h1 : c = '~'
    · subst h1
      show replaceAllChars ['~', '0'] ['~'] ('~' :: '0' :: charExpand escCharMid rest) = _
      rw [replaceAllChars_cons]
      rw [if_pos (by simp [List.isPrefixOf])]
      simp only [List.length_cons, List.length_nil, List.drop_succ_cons,
        List.drop_zero]
      rw [ih]
      rfl
    · have hc : escCharMid c = [c] := by simp [escCharMid, h1]
      show replaceAllChars ['~', '0'] ['~'] (escCharMid c ++ charExpand escCharMid rest) = _
      rw [hc]
      show replaceAllChars ['~', '0'] ['~'] (c :: charExpand escCharMid rest) = _
      rw [replaceAllChars_cons]
      rw [if_neg (by
        simp [List.isPrefixOf, beq_iff_eq]
        intro hcontr
        exact absurd hcontr.symm h1)]
      rw [ih]

/-- Round trip of the RFC 6901 escape emitted by the mutator. -/
theorem unescape_escape (s : String) :
    unescapeJSONPointer (escapeJSONPointer s) = s := by
  show (⟨replaceAllChars "~0".data "~".data
    (replaceAllChars "~1".data "/".data (escapeJSONPointer s).data)⟩ : String) = s
  have htilde : "~".data = ['~'] := rfl
  have h10 : "~0".data = ['~', '0'] := rfl
  have h11 : "~1".data = ['~', '1'] := rfl
  have hslash : "/".data = ['/'] := rfl
  rw [htilde, h10, h11, hslash, escapeJSONPointer_data, unescape_pass1,
    unescape_pass2]

/-- C8: the path segment the mutator emits for an annotation key K is K
escaped by `~` → `~0` then `/` → `~1`, in that order, and RFC 6901
unescaping of the emitted segment yields K again. -/
theorem addAnnotation_escape_roundtrip (pod : Pod)
    (anns : List (String × String)) (key value : String)
    (h : pod.annotations = some anns) :
    addAnnotation pod key value =
      .addAnnotationKey (escapeJSONPointer key) value ∧
    pathOf ( addAnnotation pod key value) =
      "/metadata/annotations/" ++ escapeJSONPointer key ∧
    unescapeJSONPointer (escapeJSONPointer key) = key := by
  refine ⟨?_, ?_, unescape_escape key⟩ <;> simp [ addAnnotation, h, pathOf]

/-- Witness for the C8 theorem at a concrete pod and the annotation key the
mutator writes. -/
theorem addAnnotation_escape_roundtrip_witness :
    addAnnotation podSimple AnnotationInjected "true" =
      .addAnnotationKey (escapeJSONPointer AnnotationInjected) "true" ∧
    pathOf ( addAnnotation podSimple AnnotationInjected "true") =
      "/metadata/annotations/" ++ escapeJSONPointer AnnotationInjected ∧
    unescapeJSONPointer (escapeJSONPointer AnnotationInjected) =
      AnnotationInjected :=
  addAnnotation_escape_roundtrip podSimple
    [(AnnotationEnabled, "true")] AnnotationInjected "true" rfl

/-! ### Mutator idempotency (C7) -/

/-- Looking up the key just upserted yields the new value. -/
theorem lookup_upsertAssoc_self (l : List (String × String)) (k v : String) :
    (upsertAssoc l k v).lookup k = some v := by
  simp [upsertAssoc, List.lookup]

/-- C7: applying the patch the mutator emits — whose last operation adds the
annotation `imds.kubevirt.io/injected` with value `"true"` — produces a pod
the predicate rejects, so feeding the mutator's own output back through the
admission flow emits zero patch operations. -/
theorem mutate_idempotent (pod : Pod) (h : ShouldMutate pod = true) :
    ShouldMutate (applyOps pod (Mutate pod)) = false ∧
    webhookPatches (applyOps pod (Mutate pod)) = [] := by
  obtain ⟨anns, hA⟩ : ∃ anns, pod.annotations = some anns := by
    cases hA : pod.annotations with
    | none => simp [ShouldMutate, hA] at h
    | some anns => exact ⟨anns, rfl⟩
  have hann' : (applyOps pod (Mutate pod)).annotations =
      some (upsertAssoc anns AnnotationInjected "true") := by
    by_cases hv : pod.volumes.length = 0 <;>
      simp [applyOps, Mutate, addVolume, addContainer, addAnnotation, hv, hA,
        applyOp, unescape_escape]
  have hfalse : ShouldMutate (applyOps pod (Mutate pod)) = false := by
    have hlook := lookup_upsertAssoc_self anns AnnotationInjected "true"
    unfold ShouldMutate
    rw [hann']
    cases hEn : (upsertAssoc anns AnnotationInjected "true").lookup
        AnnotationEnabled with
    | none => simp [hEn]
    | some e => simp [hEn, hlook]
  exact ⟨hfalse, by simp [webhookPatches, hfalse]⟩

/-- Witness for the C7 theorem at a concrete opted-in pod. -/
theorem mutate_idempotent_witness :
    ShouldMutate (applyOps podSimple (Mutate podSimple)) = false ∧
    webhookPatches (applyOps podSimple (Mutate podSimple)) = [] :=
  mutate_idempotent podSimple (by decide)

/-! ### Header middleware (C1) -/

/-- C1: for a request whose path is outside the exempt set and whose
Metadata header is not exactly `"true"`, the middleware answers 400 with
JSON error field `missing_header` and never invokes the inner handler (the
result is the same for any two inner handlers); for a request whose path is
in the exempt set it passes through regardless of headers. -/
theorem metadataHeaderMiddleware_spec (inner inner2 : Request → Response)
    (r : Request) :
    (exemptPaths.contains r.path = false → r.metadataHeader ≠ "true" →
      metadataHeaderMiddleware inner r =
        writeError 400 "missing_header" "Metadata: true header is required" ∧
      (metadataHeaderMiddleware inner r).status = 400 ∧
      jsonField (metadataHeaderMiddleware inner r) "error" =
        some (.str "missing_header") ∧
      metadataHeaderMiddleware inner r = metadataHeaderMiddleware inner2 r) ∧
    (exemptPaths.contains r.path = true →
      metadataHeaderMiddleware inner r = inner r) := by
  constructor
  · intro hx hh
    have hx' : ¬ (r.path ∈ exemptPaths) := by simpa using hx
    have h1 : metadataHeaderMiddleware inner r =
        writeError 400 "missing_header" "Metadata: true header is required" := by
      simp [metadataHeaderMiddleware, hx', hh]
    have h2 : metadataHeaderMiddleware inner2 r =
        writeError 400 "missing_header" "Metadata: true header is required" := by
      simp [metadataHeaderMiddleware, hx', hh]
    refine ⟨h1, ?_, ?_, ?_⟩
    · rw [h1]; rfl
    · rw [h1]; rfl
    · rw [h1, h2]
  · intro hx
    have hx' : r.path ∈ exemptPaths := by simpa using hx
    simp [metadataHeaderMiddleware, hx']

/-- Witness for the C1 theorem: a non-exempt path without the header is
rejected, an exempt path without the header passes through. -/
theorem metadataHeaderMiddleware_spec_witness :
    metadataHeaderMiddleware okHandler tokenReqNoHeader =
      writeError 400 "missing_header" "Metadata: true header is required" ∧
    metadataHeaderMiddleware okHandler healthzReqNoHeader =
      okHandler healthzReqNoHeader :=
  ⟨((metadataHeaderMiddleware_spec okHandler otherHandler tokenReqNoHeader).1
      rfl (by decide)).1,
   (metadataHeaderMiddleware_spec okHandler otherHandler healthzReqNoHeader).2
      rfl⟩

/-! ### Token handler (C2, C3) -/

/-- C2: when the token file read fails, GET /v1/token answers 500 with JSON
error code `token_unavailable` and no token field; when it succeeds, the
answer is 200 and the token field is the file contents with surrounding
whitespace trimmed, whether or not they parse as a JWT. -/
theorem handleToken_spec (contents : String) :
    (handleToken none getTokenReq).status = 500 ∧
    jsonField (handleToken none getTokenReq) "error" =
      some (.str "token_unavailable") ∧
    jsonField (handleToken none getTokenReq) "token" = none ∧
    (handleToken (some contents) getTokenReq).status = 200 ∧
    jsonField (handleToken (some contents) getTokenReq) "token" =
      some (.str (goTrimSpace contents)) :=
  ⟨rfl, rfl, rfl, rfl, rfl⟩

/-- C3 at its failing input: for an ill-formed token the JWT parse fails and
the status is 200, but the `expirationTimestamp` field is *present* in the
body, carrying the marshaled zero `time.Time` (`0001-01-01T00:00:00Z`),
because `omitempty` never omits a struct-typed field: the claimed absence of
the field does not hold. -/
theorem handleToken_emits_zero_time_for_invalid_token :
    parseJWTExpiration "not-a-valid-jwt" = none ∧
    (handleToken (some "not-a-valid-jwt") getTokenReq).status = 200 ∧
    jsonField (handleToken (some "not-a-valid-jwt") getTokenReq)
        "expirationTimestamp" = some (.timeRFC3339 none) :=
  ⟨rfl, rfl, rfl⟩

/-! ### Error body shapes (C9) -/

/-- C9 counterexample: the 405 response to a non-GET /healthz request is the
plain-text `http.Error` body, not a JSON object with error and message
fields. -/
theorem methodNotAllowed_body_not_json :
    (handleHealthz postHealthzReq).status = 405 ∧
    (handleHealthz postHealthzReq).body = .text "Method not allowed\n" ∧
    isJsonErrorBody (handleHealthz postHealthzReq).body = false :=
  ⟨rfl, rfl, rfl⟩

/-- C9 (amended): the 400 missing-header and 500 token-unavailable
responses carry JSON bodies of the shape with error and message fields, but
the 429 rate-limited, 405 unsupported-method, and 404 responses are the
plain-text bodies of `http.Error`/`http.NotFound`, not JSON. -/
theorem error_response_bodies (r : Request) (inner : Request → Response) :
    (exemptPaths.contains r.path = false → r.metadataHeader ≠ "true" →
      (metadataHeaderMiddleware inner r).status = 400 ∧
      isJsonErrorBody (metadataHeaderMiddleware inner r).body = true) ∧
    (r.method = "GET" →
      (handleToken none r).status = 500 ∧
      isJsonErrorBody (handleToken none r).body = true) ∧
    ((rateLimitMiddleware false inner r).status = 429 ∧
      (rateLimitMiddleware false inner r).body = .text "rate limit exceeded\n" ∧
      (rateLimitMiddleware false inner r).retryAfter = some "1" ∧
      isJsonErrorBody (rateLimitMiddleware false inner r).body = false) ∧
    (r.method ≠ "GET" →
      (handleHealthz r).status = 405 ∧
      (handleHealthz r).body = .text "Method not allowed\n" ∧
      isJsonErrorBody (handleHealthz r).body = false) ∧
    (r.method = "GET" →
      (handleUserData "" r).status = 404 ∧
      (handleUserData "" r).body = .text "404 page not found\n" ∧
      isJsonErrorBody (handleUserData "" r).body = false) := by
  refine ⟨?_, ?_, ?_, ?_, ?_⟩
  · intro hx hh
    have hx' : ¬ (r.path ∈ exemptPaths) := by simpa using hx
    constructor <;> simp [metadataHeaderMiddleware, hx', hh, writeError,
      isJsonErrorBody]
  · intro hm
    constructor <;> simp [handleToken, hm, writeError, isJsonErrorBody]
  · refine ⟨rfl, rfl, rfl, rfl⟩
  · intro hm
    refine ⟨?_, ?_, ?_⟩ <;> simp [handleHealthz, hm, httpError, isJsonErrorBody]
  · intro hm
    refine ⟨?_, ?_, ?_⟩ <;>
      simp [handleUserData, hm, notFoundResponse, httpError, isJsonErrorBody]

/-- Witness for the C9 theorem at concrete requests. -/
theorem error_response_bodies_witness :
    isJsonErrorBody (metadataHeaderMiddleware okHandler tokenReqNoHeader).body
      = true ∧
    isJsonErrorBody (handleToken none getTokenReq).body = true ∧
    (rateLimitMiddleware false okHandler getTokenReq).status = 429 ∧
    isJsonErrorBody (handleHealthz postHealthzReq).body = false ∧
    (handleUserData "" getUserDataReq).status = 404 :=
  ⟨((error_response_bodies tokenReqNoHeader okHandler).1 rfl (by decide)).2,
   ((error_response_bodies getTokenReq okHandler).2.1 rfl).2,
   (error_response_bodies getTokenReq okHandler).2.2.1.1,
   ((error_response_bodies postHealthzReq okHandler).2.2.2.1 (by decide)).2.2,
   ((error_response_bodies getUserDataReq okHandler).2.2.2.2 rfl).1⟩

/-! ### ARP responder analysis (C4, C10) -/

/-- A list of length 4 is four explicit elements. -/
theorem list_len4 : ∀ (l : List Nat), l.length = 4 →
    ∃ a b c d, l = [a, b, c, d]
  | [a, b, c, d], _ => ⟨a, b, c, d, rfl⟩
  | [], h => by simp at h
  | [_], h => by simp at h
  | [_, _], h => by simp at h
  | [_, _, _], h => by simp at h
  | _ :: _ :: _ :: _ :: _ :: _, h => by simp at h

/-- A list of length 6 is six explicit elements. -/
theorem list_len6 : ∀ (l : List Nat), l.length = 6 →
    ∃ a b c d e f, l = [a, b, c, d, e, f]
  | [a, b, c, d, e, f], _ => ⟨a, b, c, d, e, f, rfl⟩
  | [], h => by simp at h
  | [_], h => by simp at h
  | [_, _], h => by simp at h
  | [_, _, _], h => by simp at h
  | [_, _, _, _], h => by simp at h
  | [_, _, _, _, _], h => by simp at h
  | _ :: _ :: _ :: _ :: _ :: _ :: _ :: _, h => by simp at h

/-- Taking one element after a drop reads the indexed element. -/
theorem take_one_drop (l : List Nat) (i : Nat) (h : i < l.length) :
    (l.drop i).take 1 = [l[i]] := by
  rw [List.drop_eq_getElem_cons h]
  rfl

/-- The reply frame laid out as a concatenation, for inputs of the wire
lengths (6-byte hardware, 4-byte protocol addresses). -/
theorem buildARPReply_eq (m ip dm dip : List Nat) (hm : m.length = 6)
    (hip : ip.length = 4) (hdm : dm.length = 6) (hdip : dip.length = 4) :
    buildARPReply m ip dm dip =
      dm ++ m ++ [8, 6, 0, 1, 8, 0, 6, 4, 0, 2] ++ m ++ ip ++ dm ++ dip := by
  obtain ⟨m1, m2, m3, m4, m5, m6, rfl⟩ := list_len6 m hm
  obtain ⟨i1, i2, i3, i4, rfl⟩ := list_len4 ip hip
  obtain ⟨d1, d2, d3, d4, d5, d6, rfl⟩ := list_len6 dm hdm
  obtain ⟨e1, e2, e3, e4, rfl⟩ := list_len4 dip hdip
  rfl

/-- Field layout of the built reply for inputs of the wire lengths: 42
bytes, opcode 2, sender hardware/protocol = responder MAC/IP, target
hardware/protocol = requester MAC/IP. -/
theorem buildARPReply_shape (m ip dm dip : List Nat) (hm : m.length = 6)
    (hip : ip.length = 4) (hdm : dm.length = 6) (hdip : dip.length = 4) :
    (buildARPReply m ip dm dip).length = 42 ∧
    arpSlice (buildARPReply m ip dm dip) 6 2 = [0, 2] ∧
    arpSlice (buildARPReply m ip dm dip) 8 6 = m ∧
    arpSlice (buildARPReply m ip dm dip) 14 4 = ip ∧
    arpSlice (buildARPReply m ip dm dip) 18 6 = dm ∧
    arpSlice (buildARPReply m ip dm dip) 24 4 = dip := by
  obtain ⟨m1, m2, m3, m4, m5, m6, rfl⟩ := list_len6 m hm
  obtain ⟨i1, i2, i3, i4, rfl⟩ := list_len4 ip hip
  obtain ⟨d1, d2, d3, d4, d5, d6, rfl⟩ := list_len6 dm hdm
  obtain ⟨e1, e2, e3, e4, rfl⟩ := list_len4 dip hdip
  rw [buildARPReply_eq _ _ _ _ hm hip hdm hdip]
  exact ⟨rfl, rfl, rfl, rfl, rfl, rfl⟩

/-- Master evaluation of the checked packet handler: no byte access ever
fails (the outer value is always `some`), and a reply is produced exactly
for well-formed ARP requests whose target protocol address is the
responder's IP. -/
theorem handlePacketChecked_eq (m ip p : List Nat) :
    handlePacketChecked m ip p =
      some (if isIMDSArpRequestFor ip p = true then
              some (buildARPReply m ip (arpSlice p 8 6) (arpSlice p 14 4))
            else none) := by
  by_cases hlen : (p.drop ethernetHeaderLen).length < arpPacketLen
  · have hp : ¬ (ethernetHeaderLen + arpPacketLen ≤ p.length) := by
      simp only [List.length_drop, ethernetHeaderLen, arpPacketLen] at hlen
      simp only [ethernetHeaderLen, arpPacketLen]
      omega
    have hfalse : isIMDSArpRequestFor ip p = false := by
      simp [isIMDSArpRequestFor, hp]
    rw [hfalse]
    unfold handlePacketChecked
    rw [if_pos hlen]
    simp
  · push_neg at hlen
    have hlen28 : 28 ≤ (p.drop ethernetHeaderLen).length := by
      simpa [arpPacketLen] using hlen
    have hplen : ethernetHeaderLen + arpPacketLen ≤ p.length := by
      simp only [List.length_drop] at hlen28
      simp only [ethernetHeaderLen, arpPacketLen] at hlen28 ⊢
      omega
    unfold handlePacketChecked
    rw [if_neg (by omega)]
    have e02 : sliceChecked (p.drop ethernetHeaderLen) 0 2 =
        some (((p.drop ethernetHeaderLen).drop 0).take 2) := by
      unfold sliceChecked; rw [if_pos (by omega)]
    have e22 : sliceChecked (p.drop ethernetHeaderLen) 2 2 =
        some (((p.drop ethernetHeaderLen).drop 2).take 2) := by
      unfold sliceChecked; rw [if_pos (by omega)]
    have e62 : sliceChecked (p.drop ethernetHeaderLen) 6 2 =
        some (((p.drop ethernetHeaderLen).drop 6).take 2) := by
      unfold sliceChecked; rw [if_pos (by omega)]
    have e86 : sliceChecked (p.drop ethernetHeaderLen) 8 6 =
        some (((p.drop ethernetHeaderLen).drop 8).take 6) := by
      unfold sliceChecked; rw [if_pos (by omega)]
    have e144 : sliceChecked (p.drop ethernetHeaderLen) 14 4 =
        some (((p.drop ethernetHeaderLen).drop 14).take 4) := by
      unfold sliceChecked; rw [if_pos (by omega)]
    have e244 : sliceChecked (p.drop ethernetHeaderLen) 24 4 =
        some (((p.drop ethernetHeaderLen).drop 24).take 4) := by
      unfold sliceChecked; rw [if_pos (by omega)]
    have g4 := List.getElem?_eq_getElem
      (show 4 < (p.drop ethernetHeaderLen).length by omega)
    have g5 := List.getElem?_eq_getElem
      (show 5 < (p.drop ethernetHeaderLen).length by omega)
    rw [e02, e22, g4, g5, e62]
    simp only [Option.some_bind]
    split
    next hc =>
      rw [e86, e144, e244]
      simp only [Option.some_bind]
      by_cases htgt : ((p.drop ethernetHeaderLen).drop 24).take 4 = ip
      · rw [if_pos htgt]
        have htrue : isIMDSArpRequestFor ip p = true := by
          obtain ⟨h1, h2, h3, h4, h5⟩ := hc
          unfold isIMDSArpRequestFor arpSlice
          rw [take_one_drop _ 4 (by omega), take_one_drop _ 5 (by omega)]
          simp only [Bool.and_eq_true, beq_iff_eq, decide_eq_true_eq]
          exact ⟨⟨⟨⟨⟨⟨hplen, h1⟩, h2⟩, by rw [h3]⟩, by rw [h4]⟩, h5⟩, htgt⟩
        rw [if_pos htrue]
        unfold arpSlice
        rfl
      · rw [if_neg htgt]
        have hfalse : isIMDSArpRequestFor ip p = false := by
          unfold isIMDSArpRequestFor arpSlice
          have hbeq : (((p.drop ethernetHeaderLen).drop 24).take 4 == ip)
              = false := by
            exact beq_eq_false_iff_ne.mpr htgt
          rw [hbeq, Bool.and_false]
        rw [hfalse]
        simp
    next hc =>
      cases hreq : isIMDSArpRequestFor ip p
      · simp
      · exfalso
        apply hc
        unfold isIMDSArpRequestFor arpSlice at hreq
        rw [take_one_drop _ 4 (by omega), take_one_drop _ 5 (by omega)] at hreq
        simp only [Bool.and_eq_true, beq_iff_eq, decide_eq_true_eq] at hreq
        obtain ⟨⟨⟨⟨⟨⟨-, h1⟩, h2⟩, h3⟩, h4⟩, h5⟩, -⟩ := hreq
        exact ⟨h1, h2, by simpa using h3, by simpa using h4, h5⟩

/-- C10: the receive loop drops every frame shorter than 42 bytes before any
field of it is read, and for every frame — of any length — each byte access
performed by the packet parser is in bounds (the checked parser never
signals an out-of-bounds read). -/
theorem arp_parsing_in_bounds (m ip p : List Nat) :
    (p.length < ethernetHeaderLen + arpPacketLen →
      responderStep m ip p = none) ∧
    (handlePacketChecked m ip p).isSome = true := by
  constructor
  · intro h
    unfold responderStep
    rw [if_pos h]
  · rw [handlePacketChecked_eq]
    rfl

/-- Witness for the C10 theorem: a 41-byte frame is dropped, and access
safety holds on a concrete well-formed frame. -/
theorem arp_parsing_in_bounds_witness :
    responderStep imdsMacSample imdsAddrBytes shortFrame = none ∧
    (handlePacketChecked imdsMacSample imdsAddrBytes arpRequestFrame).isSome
      = true :=
  ⟨(arp_parsing_in_bounds imdsMacSample imdsAddrBytes shortFrame).1
     (by decide),
   (arp_parsing_in_bounds imdsMacSample imdsAddrBytes arpRequestFrame).2⟩

/-- C4 counterexample: a well-formed ARP request for 169.254.169.254 whose
sender MAC differs from the discovered VM MAC still receives a reply — the
source has no sender-MAC allow-list, so the claimed "no reply for sender
MAC ≠ vm_mac" fails. -/
theorem handlePacket_replies_to_foreign_mac :
    arpSlice arpRequestFrame 8 6 ≠ vmMacSample ∧
    handlePacket imdsMacSample imdsAddrBytes arpRequestFrame =
      some (buildARPReply imdsMacSample imdsAddrBytes senderMacSample
        [169, 254, 1, 2]) := by
  exact ⟨by decide, rfl⟩

/-- C4 (amended): for every well-formed ARP request frame (hardware type 1,
protocol type 0x0800, hardware length 6, protocol length 4, opcode 1) whose
target protocol address is 169.254.169.254 — regardless of the sender MAC —
exactly one 42-byte reply is produced, with opcode 2, sender hardware
address the server-side veth MAC, sender protocol address 169.254.169.254,
and target hardware/protocol addresses the requester's MAC and IP; for
every other ARP frame no reply is produced. -/
theorem handlePacket_spec (m p : List Nat) (hm : m.length = 6) :
    (isIMDSArpRequestFor imdsAddrBytes p = true →
      handlePacket m imdsAddrBytes p =
        some (buildARPReply m imdsAddrBytes (arpSlice p 8 6)
          (arpSlice p 14 4)) ∧
      (buildARPReply m imdsAddrBytes (arpSlice p 8 6)
          (arpSlice p 14 4)).length = 42 ∧
      arpSlice (buildARPReply m imdsAddrBytes (arpSlice p 8 6)
          (arpSlice p 14 4)) 6 2 = [0, 2] ∧
      arpSlice (buildARPReply m imdsAddrBytes (arpSlice p 8 6)
          (arpSlice p 14 4)) 8 6 = m ∧
      arpSlice (buildARPReply m imdsAddrBytes (arpSlice p 8 6)
          (arpSlice p 14 4)) 14 4 = imdsAddrBytes ∧
      arpSlice (buildARPReply m imdsAddrBytes (arpSlice p 8 6)
          (arpSlice p 14 4)) 18 6 = arpSlice p 8 6 ∧
      arpSlice (buildARPReply m imdsAddrBytes (arpSlice p 8 6)
          (arpSlice p 14 4)) 24 4 = arpSlice p 14 4) ∧
    (isIMDSArpRequestFor imdsAddrBytes p = false →
      handlePacket m imdsAddrBytes p = none) := by
  constructor
  · intro h
    have hp42 : ethernetHeaderLen + arpPacketLen ≤ p.length := by
      unfold isIMDSArpRequestFor at h
      simp only [Bool.and_eq_true, decide_eq_true_eq] at h
      exact h.1.1.1.1.1.1
    have hdm : (arpSlice p 8 6).length = 6 := by
      simp only [arpSlice, List.length_take, List.length_drop]
      simp only [ethernetHeaderLen, arpPacketLen] at hp42
      simp only [ethernetHeaderLen]
      omega
    have hdip : (arpSlice p 14 4).length = 4 := by
      simp only [arpSlice, List.length_take, List.length_drop]
      simp only [ethernetHeaderLen, arpPacketLen] at hp42
      simp only [ethernetHeaderLen]
      omega
    have hmain : handlePacket m imdsAddrBytes p =
        some (buildARPReply m imdsAddrBytes (arpSlice p 8 6)
          (arpSlice p 14 4)) := by
      unfold handlePacket
      rw [handlePacketChecked_eq, if_pos h]
      rfl
    obtain ⟨s1, s2, s3, s4, s5, s6⟩ :=
      buildARPReply_shape m imdsAddrBytes (arpSlice p 8 6) (arpSlice p 14 4)
        hm rfl hdm hdip
    exact ⟨hmain, s1, s2, s3, s4, s5, s6⟩
  · intro h
    unfold handlePacket
    rw [handlePacketChecked_eq, h]
    simp

/-- Witness for the C4 theorem: the reply to a concrete well-formed request
and the absence of a reply for a short frame. -/
theorem handlePacket_spec_witness :
    handlePacket imdsMacSample imdsAddrBytes arpRequestFrame =
      some (buildARPReply imdsMacSample imdsAddrBytes
        (arpSlice arpRequestFrame 8 6) (arpSlice arpRequestFrame 14 4)) ∧
    handlePacket imdsMacSample imdsAddrBytes shortFrame = none :=
  ⟨((handlePacket_spec imdsMacSample arpRequestFrame (by decide)).1
      (by decide)).1,
   (handlePacket_spec imdsMacSample shortFrame (by decide)).2 (by decide)⟩

end KVImds
